import Mathlib

/-!
Verification of the feature-flag CRUD core of `packages/api-feature-flags`.

The embedding models:
* the `feature_flags` table (schema/feature-flags.sql) as a list of rows
  together with the SERIAL id counter;
* the service operations of `src/services/feature-flag.service.ts`
  (`getFlagByKey`, `createFlag`, `updateFlag`, `deleteFlag`, `toggleFlag`,
  `searchFlags`) as pure functions on that store — each service method is a
  single SQL statement, so it becomes one function; the `updated_at` trigger
  of the schema (`update_updated_at_column`) is folded into the mutating
  statements, which take the current time `now : Nat` as a parameter;
* the controller `src/controllers/feature-flag.controller.ts` (the
  create-path with its existence pre-check) and the Postgres error-code
  mapping of the express `errorHandler` middleware;
* the `transaction` helper of `src/db/feature-flag.dbconfig.ts`.

Request-body values are untyped JSON at runtime, so optional body fields are
modelled three-valued: `none` is an absent field (JS `undefined`),
`some none` is an explicit JSON `null`, `some (some v)` is a proper value.
JSON numbers are modelled as integers (enough to express JS truthiness and
the payloads appearing in this repository); Postgres `lower`-casing is
modelled by `Char.toLower` (ASCII, which covers the keys in use).
-/

/-- A JSON value, as stored in the `flag_data` JSONB column. -/
inductive Json where
  | null
  | bool (b : Bool)
  | num (n : Int)
  | str (s : String)
  | arr (xs : List Json)
  | obj (kvs : List (String × Json))

/-- JavaScript truthiness of a JSON value, used by the `||` defaulting in
`createFlag` (`data.description || ''`, `data.flag_data || {}`). -/
def jsTruthy : Json → Bool
  | .null => false
  | .bool b => b
  | .num n => n != 0
  | .str s => !s.isEmpty
  | .arr _ => true
  | .obj _ => true

/-- One row of the `feature_flags` table.  `description` is a nullable TEXT
column, hence `Option String`; `flag_data` is JSONB NOT NULL. -/
structure FeatureFlag where
  id : Nat
  flag_key : String
  description : Option String
  enabled : Bool
  flag_data : Json
  created_at : Nat
  updated_at : Nat

/-- The `feature_flags` table: its rows plus the next SERIAL `id`. -/
structure Store where
  rows : List FeatureFlag
  nextId : Nat

/-- A Postgres error as seen by the express error handler: it may carry a
`code` property (`'code' in err`). -/
structure PgError where
  code : Option String

/-- Body of `POST /feature-flags` as destructured by the controller. -/
structure CreateBody where
  flag_key : Option String
  description : Option (Option String)
  enabled : Option (Option Bool)
  flag_data : Option Json

/-- `CreateFeatureFlagDto` as it reaches the service at runtime. -/
structure CreateFeatureFlagDto where
  flag_key : String
  description : Option (Option String)
  enabled : Option (Option Bool)
  flag_data : Option Json

/-- `UpdateFeatureFlagDto` as it reaches the service at runtime. -/
structure UpdateFeatureFlagDto where
  description : Option (Option String)
  enabled : Option (Option Bool)
  flag_data : Option Json

/-- JS `x || dflt` for an optional string field (`data.description || ''`):
absent, `null` and the empty string are all falsy. -/
def jsOrStr (v : Option (Option String)) (dflt : String) : String :=
  match v with
  | some (some s) => if s.isEmpty then dflt else s
  | _ => dflt

/-- JS `x ?? dflt` for an optional boolean field (`data.enabled ?? false`):
only absent and `null` fall back. -/
def jsNullish (v : Option (Option Bool)) (dflt : Bool) : Bool :=
  (v.bind id).getD dflt

/-- JS `x || {}` for the `flag_data` field (`data.flag_data || {}`): a falsy
JSON value (absent, `null`, `false`, `0`, `""`) becomes the empty object. -/
def jsOrEmptyObj (v : Option Json) : Json :=
  match v with
  | some j => if jsTruthy j then j else .obj []
  | none => .obj []

namespace FeatureFlagService

/-- `getFlagByKey`: `SELECT ... WHERE flag_key = $1`, then `rows[0] || null`. -/
def getFlagByKey (st : Store) (flagKey : String) : Option FeatureFlag :=
  st.rows.find? (fun r => r.flag_key == flagKey)

/-- `createFlag`: `INSERT INTO feature_flags (flag_key, description, enabled,
flag_data) VALUES ...` with the service-side defaults.  The UNIQUE constraint
on `flag_key` rejects a duplicate with Postgres error code 23505. -/
def createFlag (st : Store) (now : Nat) (data : CreateFeatureFlagDto) :
    Except PgError (FeatureFlag × Store) :=
  if st.rows.any (fun r => r.flag_key == data.flag_key) then
    .error { code := some ("23505") }
  else
    let row : FeatureFlag :=
      { id := st.nextId
        flag_key := data.flag_key
        description := some (jsOrStr data.description (""))
        enabled := jsNullish data.enabled false
        flag_data := jsOrEmptyObj data.flag_data
        created_at := now
        updated_at := now }
    .ok (row, { rows := st.rows ++ [row], nextId := st.nextId + 1 })

/-- The effect of `UPDATE feature_flags SET <present fields> WHERE ...` on one
row, with the `update_updated_at_column` trigger setting `updated_at`. -/
def applyPatch (d : UpdateFeatureFlagDto) (now : Nat) (r : FeatureFlag) :
    FeatureFlag :=
  { r with
    description := d.description.getD r.description
    enabled := (d.enabled.bind id).getD r.enabled
    flag_data := d.flag_data.getD r.flag_data
    updated_at := now }

/-- `updateFlag`: builds `SET` clauses only for fields `!== undefined`; with
zero clauses it short-circuits to `getFlagByKey`.  Assigning JSON `null` to
the NOT NULL `enabled` column is a Postgres not-null violation (23502). -/
def updateFlag (st : Store) (now : Nat) (flagKey : String)
    (d : UpdateFeatureFlagDto) : Except PgError (Option FeatureFlag × Store) :=
  if d.description.isNone && d.enabled.isNone && d.flag_data.isNone then
    .ok (getFlagByKey st flagKey, st)
  else if d.enabled == some none then
    .error { code := some ("23502") }
  else
    .ok ((getFlagByKey st flagKey).map (applyPatch d now),
      { rows := st.rows.map
          (fun r => if r.flag_key == flagKey then applyPatch d now r else r)
        nextId := st.nextId })

/-- `deleteFlag`: `DELETE ... WHERE flag_key = $1 RETURNING id`, reporting
`rowCount > 0`. -/
def deleteFlag (st : Store) (flagKey : String) : Bool × Store :=
  (st.rows.any (fun r => r.flag_key == flagKey),
   { rows := st.rows.filter (fun r => !(r.flag_key == flagKey))
     nextId := st.nextId })

/-- `toggleFlag`: `UPDATE feature_flags SET enabled = NOT enabled WHERE
flag_key = $1 RETURNING ...` (single statement, no application-side read);
the trigger refreshes `updated_at`. -/
def toggleFlag (st : Store) (now : Nat) (flagKey : String) :
    Option FeatureFlag × Store :=
  ((getFlagByKey st flagKey).map
      (fun r => { r with enabled := !r.enabled, updated_at := now }),
   { rows := st.rows.map
       (fun r => if r.flag_key == flagKey then
           { r with enabled := !r.enabled, updated_at := now }
         else r)
     nextId := st.nextId })

end FeatureFlagService

/-- Postgres lower-casing of one character (ASCII, as used by ILIKE). -/
def lc (c : Char) : Char := c.toLower

/-- Postgres LIKE/ILIKE pattern matching, case-insensitive: `%` matches any
sequence, `_` matches exactly one character, a backslash escapes the next
pattern character, and a trailing lone backslash matches nothing (Postgres
raises an error for it, so no row is returned). -/
def likeMatch : List Char → List Char → Bool
  | [], s => s.isEmpty
  | p :: ps, s =>
    if p = '%' then
      likeMatch ps s ||
        (match s with
         | [] => false
         | _ :: s' => likeMatch (p :: ps) s')
    else if p = '_' then
      match s with
      | [] => false
      | _ :: s' => likeMatch ps s'
    else if p = '\\' then
      match ps with
      | [] => false
      | q :: ps' =>
        match s with
        | [] => false
        | c :: s' => (lc q == lc c) && likeMatch ps' s'
    else
      match s with
      | [] => false
      | c :: s' => (lc p == lc c) && likeMatch ps s'
termination_by p s => (s.length, p.length)

/-- `s ILIKE pat` on whole strings. -/
def ilikeStr (pat s : String) : Bool := likeMatch pat.data s.data

namespace FeatureFlagService

/-- `searchFlags`: `SELECT ... WHERE flag_key ILIKE $1 OR description ILIKE
$1 ORDER BY flag_key` with the parameter `%${searchTerm}%`; a NULL
`description` never matches. -/
def searchFlags (st : Store) (searchTerm : String) : List FeatureFlag :=
  let pat := "%" ++ searchTerm ++ "%"
  List.insertionSort (fun a b => a.flag_key ≤ b.flag_key)
    (st.rows.filter (fun r =>
      ilikeStr pat r.flag_key ||
        (match r.description with
         | some d => ilikeStr pat d
         | none => false)))

end FeatureFlagService

/-- Case-insensitive equality check that `needle` starts the list `hay`
(spec-side helper for plain substring containment). -/
def startsWithList : List Char → List Char → Bool
  | [], _ => true
  | _ :: _, [] => false
  | a :: as, b :: bs => (a == b) && startsWithList as bs

/-- Plain substring containment on character lists (spec-side helper). -/
def hasSubstr (needle : List Char) : List Char → Bool
  | [] => needle.isEmpty
  | c :: t => startsWithList needle (c :: t) || hasSubstr needle t

/-- Modelled from the spec: `s` case-insensitively contains `term` as a
plain substring (not full-text, no wildcards). -/
def ciContains (term s : String) : Bool :=
  hasSubstr (term.data.map lc) (s.data.map lc)

/-- A search term is plain when it contains none of the LIKE
metacharacters `%`, `_`, `\`. -/
def plainTerm (t : String) : Bool :=
  t.data.all (fun c => !(c == '%') && !(c == '_') && !(c == '\\'))

/-- The express error-handling middleware: maps Postgres error codes to HTTP
statuses (23505 → 409, 23503 → 400, 22P02 → 400, anything else → 500). -/
def errorHandler (e : PgError) : Nat :=
  match e.code with
  | some c =>
    if c = "23505" then 409
    else if c = "23503" then 400
    else if c = "22P02" then 400
    else 500
  | none => 500

namespace FeatureFlagController

/-- The controller's `createFlag`: 400 when `flag_key` is missing or empty
(JS `!flag_key`), 409 when the existence pre-check finds a row, otherwise the
service insert; a service error reaches `errorHandler` via `next(error)`.
Returns the HTTP status and the resulting store. -/
def createFlag (st : Store) (now : Nat) (b : CreateBody) : Nat × Store :=
  match b.flag_key with
  | none => (400, st)
  | some k =>
    if k.isEmpty then (400, st)
    else
      match FeatureFlagService.getFlagByKey st k with
      | some _ => (409, st)
      | none =>
        match FeatureFlagService.createFlag st now
            { flag_key := k, description := b.description,
              enabled := b.enabled, flag_data := b.flag_data } with
        | .ok (_, st') => (201, st')
        | .error e => (errorHandler e, st)

end FeatureFlagController

/-- Result of the `transaction` helper: the callback's outcome, the state of
the store after COMMIT/ROLLBACK, and whether the client was released. -/
structure TxResult (α : Type) where
  outcome : Except PgError α
  finalState : Store
  released : Bool

/-- `transaction` from `feature-flag.dbconfig.ts`: BEGIN, run the callback,
COMMIT on success; ROLLBACK (restoring the pre-transaction store) and
re-throw on error; release the client in `finally` on every path. -/
def transaction {α : Type} (st : Store)
    (callback : Store → Except PgError (α × Store)) : TxResult α :=
  match callback st with
  | .ok (a, st') => { outcome := .ok a, finalState := st', released := true }
  | .error e => { outcome := .error e, finalState := st, released := true }

instance : IsTotal FeatureFlag (fun a b => a.flag_key ≤ b.flag_key) :=
  ⟨fun a b => le_total a.flag_key b.flag_key⟩

instance : IsTrans FeatureFlag (fun a b => a.flag_key ≤ b.flag_key) :=
  ⟨fun _ _ _ hab hbc => le_trans hab hbc⟩

/-- An empty table, as after running the schema on a fresh database. -/
def store0 : Store := { rows := [], nextId := 1 }

/-- A sample persisted flag used to instantiate the theorems. -/
def sampleFlag : FeatureFlag :=
  { id := 1, flag_key := "beta-ui", description := some ("d"), enabled := true,
    flag_data := .obj [("a", .num 1)], created_at := 0, updated_at := 0 }

/-- A one-row table holding `sampleFlag`. -/
def sampleStore : Store := { rows := [sampleFlag], nextId := 2 }

/-- A flag whose key contains no `_` character. -/
def cexFlag : FeatureFlag :=
  { id := 1, flag_key := "x", description := some (""), enabled := false,
    flag_data := .obj [], created_at := 0, updated_at := 0 }

/-- A one-row table holding `cexFlag`. -/
def cexStore : Store := { rows := [cexFlag], nextId := 2 }

/-- A flag named `Dark-Mode`, as in the spec's search example. -/
def darkFlag : FeatureFlag :=
  { id := 1, flag_key := "Dark-Mode", description := some (""), enabled := false,
    flag_data := .obj [], created_at := 0, updated_at := 0 }

/-- A one-row table holding `darkFlag`. -/
def darkStore : Store := { rows := [darkFlag], nextId := 2 }

/-! ### Helper lemmas -/

theorem likeMatch_none (s : List Char) : likeMatch [] s = s.isEmpty := by
  rw [likeMatch.eq_def]

theorem likeMatch_pct (ps : List Char) (s : List Char) :
    likeMatch ('%' :: ps) s =
      (likeMatch ps s ||
        (match s with
         | [] => false
         | _ :: s' => likeMatch ('%' :: ps) s')) := by
  rw [likeMatch.eq_def]; simp

theorem likeMatch_us (ps : List Char) (s : List Char) :
    likeMatch ('_' :: ps) s =
      (match s with
       | [] => false
       | _ :: s' => likeMatch ps s') := by
  rw [likeMatch.eq_def]; simp

theorem likeMatch_lit (p : Char) (ps s : List Char) (h1 : p ≠ '%')
    (h2 : p ≠ '_') (h3 : p ≠ '\\') :
    likeMatch (p :: ps) s =
      (match s with
       | [] => false
       | c :: s' => (lc p == lc c) && likeMatch ps s') := by
  rw [likeMatch.eq_def]; simp [h1, h2, h3]

theorem startsWithList_iff (n : List Char) : ∀ h : List Char,
    (startsWithList n h = true ↔ ∃ t, n ++ t = h) := by
  induction n with
  | nil => intro h; simp [startsWithList]
  | cons a as ih =>
    intro h
    cases h with
    | nil => simp [startsWithList]
    | cons b bs =>
      simp only [startsWithList, Bool.and_eq_true, beq_iff_eq, ih bs,
        List.cons_append, List.cons.injEq]
      constructor
      · rintro ⟨rfl, t, rfl⟩; exact ⟨t, rfl, rfl⟩
      · rintro ⟨t, rfl, rfl⟩; exact ⟨rfl, t, rfl⟩

theorem hasSubstr_iff (n : List Char) : ∀ h : List Char,
    (hasSubstr n h = true ↔ ∃ u v, u ++ n ++ v = h) := by
  intro h
  induction h with
  | nil =>
    simp only [hasSubstr, List.isEmpty_iff]
    constructor
    · rintro rfl; exact ⟨[], [], rfl⟩
    · rintro ⟨u, v, huv⟩
      rcases List.append_eq_nil.mp huv with ⟨h1, _⟩
      exact (List.append_eq_nil.mp h1).2
  | cons c t ih =>
    simp only [hasSubstr, Bool.or_eq_true, startsWithList_iff, ih]
    constructor
    · rintro (⟨v, hv⟩ | ⟨u, v, huv⟩)
      · exact ⟨[], v, by simpa using hv⟩
      · exact ⟨c :: u, v, by simp [huv]⟩
    · rintro ⟨u, v, huv⟩
      cases u with
      | nil => exact Or.inl ⟨v, by simpa using huv⟩
      | cons x u' =>
        simp only [List.cons_append, List.cons.injEq] at huv
        exact Or.inr ⟨u', v, huv.2⟩

theorem likeMatch_pct_only (s : List Char) : likeMatch ['%'] s = true := by
  induction s with
  | nil => simp [likeMatch_pct, likeMatch_none]
  | cons c s ih => rw [likeMatch_pct]; simp [ih]

theorem likeMatch_pct_head (ps : List Char) : ∀ s : List Char,
    (likeMatch ('%' :: ps) s = true ↔
      ∃ u t, u ++ t = s ∧ likeMatch ps t = true) := by
  intro s
  induction s with
  | nil =>
    rw [likeMatch_pct]
    constructor
    · intro hm
      simp only [Bool.or_eq_true] at hm
      rcases hm with hm | hm
      · exact ⟨[], [], rfl, hm⟩
      · simp at hm
    · rintro ⟨u, t, hut, hm⟩
      rcases List.append_eq_nil.mp hut with ⟨rfl, rfl⟩
      simp [hm]
  | cons c s ih =>
    rw [likeMatch_pct]
    simp only [Bool.or_eq_true, ih]
    constructor
    · rintro (hm | ⟨u, t, rfl, hm⟩)
      · exact ⟨[], c :: s, rfl, hm⟩
      · exact ⟨c :: u, t, rfl, hm⟩
    · rintro ⟨u, t, hut, hm⟩
      cases u with
      | nil => simp at hut; subst hut; exact Or.inl hm
      | cons x u' =>
        simp only [List.cons_append, List.cons.injEq] at hut
        exact Or.inr ⟨u', t, hut.2, hm⟩

theorem likeMatch_plain_pct (p : List Char)
    (hp : ∀ c ∈ p, c ≠ '%' ∧ c ≠ '_' ∧ c ≠ '\\') : ∀ s : List Char,
    (likeMatch (p ++ ['%']) s = true ↔ ∃ t, p.map lc ++ t = s.map lc) := by
  induction p with
  | nil =>
    intro s
    simpa using likeMatch_pct_only s
  | cons a p' ih =>
    intro s
    obtain ⟨ha1, ha2, ha3⟩ := hp a (by simp)
    have hp' : ∀ c ∈ p', c ≠ '%' ∧ c ≠ '_' ∧ c ≠ '\\' :=
      fun c hc => hp c (by simp [hc])
    rw [List.cons_append, likeMatch_lit a _ s ha1 ha2 ha3]
    cases s with
    | nil => simp
    | cons c s' =>
      simp only [Bool.and_eq_true, beq_iff_eq, ih hp' s', List.map_cons,
        List.cons_append, List.cons.injEq]
      constructor
      · rintro ⟨h1, t, h2⟩; exact ⟨t, h1, h2⟩
      · rintro ⟨t, h1, h2⟩; exact ⟨h1, t, h2⟩

theorem likeMatch_plain_substr (p : List Char)
    (hp : ∀ c ∈ p, c ≠ '%' ∧ c ≠ '_' ∧ c ≠ '\\') (s : List Char) :
    likeMatch ('%' :: (p ++ ['%'])) s = hasSubstr (p.map lc) (s.map lc) := by
  rw [Bool.eq_iff_iff, likeMatch_pct_head, hasSubstr_iff]
  constructor
  · rintro ⟨u, t, rfl, hm⟩
    obtain ⟨v, hv⟩ := (likeMatch_plain_pct p hp t).mp hm
    exact ⟨u.map lc, v, by simp [← hv]⟩
  · rintro ⟨u, v, huv⟩
    refine ⟨s.take u.length, s.drop u.length, List.take_append_drop _ _, ?_⟩
    rw [likeMatch_plain_pct p hp]
    refine ⟨v, ?_⟩
    rw [List.map_drop, ← huv, List.append_assoc, List.drop_left]

theorem patData (t : String) :
    ("%" ++ t ++ "%").data = '%' :: (t.data ++ ['%']) := by
  cases t; rfl

theorem plainTerm_chars {t : String} (h : plainTerm t = true) :
    ∀ c ∈ t.data, c ≠ '%' ∧ c ≠ '_' ∧ c ≠ '\\' := by
  intro c hc
  have := List.all_eq_true.mp h c hc
  simp only [Bool.and_eq_true, Bool.not_eq_eq_eq_not, Bool.not_true,
    beq_eq_false_iff_ne, ne_eq] at this
  exact ⟨this.1.1, this.1.2, this.2⟩

theorem ilike_eq_ciContains (term s : String) (h : plainTerm term = true) :
    ilikeStr ("%" ++ term ++ "%") s = ciContains term s := by
  rw [ilikeStr, patData, likeMatch_plain_substr term.data (plainTerm_chars h),
    ciContains]

theorem findKey_none_any (st : Store) (k : String)
    (h : FeatureFlagService.getFlagByKey st k = none) :
    st.rows.any (fun r => r.flag_key == k) = false := by
  rw [List.any_eq_false]
  intro x hx
  exact List.find?_eq_none.mp h x hx

theorem find?_map_keyed (g : FeatureFlag → FeatureFlag)
    (hg : ∀ r, (g r).flag_key = r.flag_key) (k : String)
    (l : List FeatureFlag) :
    (l.map g).find? (fun r => r.flag_key == k) =
      (l.find? (fun r => r.flag_key == k)).map g := by
  induction l with
  | nil => rfl
  | cons r t ih =>
    simp only [List.map_cons, List.find?_cons]
    rw [hg r]
    cases hrk : (r.flag_key == k) with
    | true => rfl
    | false => exact ih

/-! ### Claim theorems -/

/-- C5: for every create input supplying only `flag_key`, the persisted flag
has `description = ""`, `enabled = false` and `flag_data = {}` (never null). -/
theorem C5_create_defaults (st : Store) (now : Nat) (k : String)
    (habs : FeatureFlagService.getFlagByKey st k = none) :
    (∃ p, FeatureFlagService.createFlag st now
        { flag_key := k, description := none, enabled := none,
          flag_data := none } = .ok p) ∧
    ∀ row st',
      FeatureFlagService.createFlag st now
          { flag_key := k, description := none, enabled := none,
            flag_data := none } = .ok (row, st') →
      row.description = some ("") ∧ row.enabled = false ∧
      row.flag_data = .obj [] ∧
      FeatureFlagService.getFlagByKey st' k = some row := by
  have hany := findKey_none_any st k habs
  constructor
  · exact ⟨_, by rw [FeatureFlagService.createFlag, hany]; exact rfl⟩
  · intro row st' h
    rw [FeatureFlagService.createFlag, hany] at h
    simp only [Bool.false_eq_true, if_false, Except.ok.injEq,
      Prod.mk.injEq] at h
    obtain ⟨hrow, hst⟩ := h
    subst hrow
    subst hst
    refine ⟨rfl, rfl, rfl, ?_⟩
    rw [FeatureFlagService.getFlagByKey] at habs ⊢
    rw [List.find?_append, habs]
    simp

/-- C5 witness: creating `flag_key = "x"` in the empty table persists the
documented defaults. -/
theorem C5_witness :
    ({ id := 1, flag_key := "x", description := some (""), enabled := false,
       flag_data := Json.obj [], created_at := 7, updated_at := 7 } :
      FeatureFlag).description = some ("") ∧
    ({ id := 1, flag_key := "x", description := some (""), enabled := false,
       flag_data := Json.obj [], created_at := 7, updated_at := 7 } :
      FeatureFlag).enabled = false ∧
    ({ id := 1, flag_key := "x", description := some (""), enabled := false,
       flag_data := Json.obj [], created_at := 7, updated_at := 7 } :
      FeatureFlag).flag_data = .obj [] ∧
    FeatureFlagService.getFlagByKey
        { rows := [{ id := 1, flag_key := "x", description := some (""),
                     enabled := false, flag_data := Json.obj [],
                     created_at := 7, updated_at := 7 }], nextId := 2 } "x" =
      some { id := 1, flag_key := "x", description := some (""),
             enabled := false, flag_data := Json.obj [], created_at := 7,
             updated_at := 7 } :=
  (C5_create_defaults store0 7 "x" rfl).2
    { id := 1, flag_key := "x", description := some (""), enabled := false,
      flag_data := Json.obj [], created_at := 7, updated_at := 7 }
    { rows := [{ id := 1, flag_key := "x", description := some (""),
                 enabled := false, flag_data := Json.obj [], created_at := 7,
                 updated_at := 7 }], nextId := 2 } rfl

/-- C8: `getByKey` on a missing key returns an explicit absence (it is a
total function into `Option`), deleting a nonexistent key reports `false`
and leaves the table unchanged, and after any delete of `k` a subsequent
`getByKey k` returns absence. -/
theorem C8_delete_get (st : Store) (k : String) :
    ((∀ r ∈ st.rows, r.flag_key ≠ k) →
      FeatureFlagService.getFlagByKey st k = none) ∧
    (FeatureFlagService.getFlagByKey st k = none →
      FeatureFlagService.deleteFlag st k = (false, st)) ∧
    (∀ b st', FeatureFlagService.deleteFlag st k = (b, st') →
      FeatureFlagService.getFlagByKey st' k = none) := by
  refine ⟨?_, ?_, ?_⟩
  · intro h
    rw [FeatureFlagService.getFlagByKey, List.find?_eq_none]
    intro x hx
    simpa using h x hx
  · intro h
    have hany := findKey_none_any st k h
    have hfilter : st.rows.filter (fun r => !(r.flag_key == k)) = st.rows := by
      rw [List.filter_eq_self]
      intro a ha
      simpa using List.find?_eq_none.mp h a ha
    rw [FeatureFlagService.deleteFlag, hany, hfilter]
  · intro b st' hdel
    have hst' : st'.rows = st.rows.filter (fun r => !(r.flag_key == k)) := by
      have h2 := congrArg Prod.snd hdel
      rw [FeatureFlagService.deleteFlag] at h2
      exact (congrArg Store.rows h2).symm
    rw [FeatureFlagService.getFlagByKey, List.find?_eq_none, hst']
    intro x hx
    simpa using (List.mem_filter.mp hx).2

/-- C8 witness: in the sample table, deleting `beta-ui` then reading it
returns absence, and deleting the unknown key `nope` reports `false`. -/
theorem C8_witness :
    FeatureFlagService.getFlagByKey
      (FeatureFlagService.deleteFlag sampleStore ("beta-ui")).2 "beta-ui" =
        none ∧
    FeatureFlagService.deleteFlag sampleStore ("nope") = (false, sampleStore) :=
  ⟨(C8_delete_get sampleStore ("beta-ui")).2.2
      (FeatureFlagService.deleteFlag sampleStore ("beta-ui")).1
      (FeatureFlagService.deleteFlag sampleStore ("beta-ui")).2 rfl,
   (C8_delete_get sampleStore ("nope")).2.1 rfl⟩

theorem getFlagByKey_map_patch (st : Store) (k : String) (r : FeatureFlag)
    (g : FeatureFlag → FeatureFlag) (hg : ∀ x, (g x).flag_key = x.flag_key)
    (hr : FeatureFlagService.getFlagByKey st k = some r) :
    FeatureFlagService.getFlagByKey
        { rows := st.rows.map (fun x => if x.flag_key == k then g x else x),
          nextId := st.nextId } k = some (g r) := by
  rw [FeatureFlagService.getFlagByKey]
  have hg' : ∀ x,
      ((fun x => if x.flag_key == k then g x else x) x).flag_key =
        x.flag_key := by
    intro x
    by_cases h : (x.flag_key == k) = true <;> simp [h, hg]
  rw [FeatureFlagService.getFlagByKey] at hr
  have hkey := List.find?_some hr
  rw [find?_map_keyed _ hg' k, hr, Option.map_some']
  simp only [hkey, if_true]

/-- C10: an update whose patch sets a field to JSON null treats the field as
present: updating with `{description: null}` stores SQL NULL in the
`description` column. -/
theorem C10_update_null_description (st : Store) (k : String) (now : Nat)
    (r : FeatureFlag)
    (hr : FeatureFlagService.getFlagByKey st k = some r) :
    (∃ out, FeatureFlagService.updateFlag st now k
        { description := some none, enabled := none, flag_data := none } =
        .ok out) ∧
    ∀ res st',
      FeatureFlagService.updateFlag st now k
          { description := some none, enabled := none, flag_data := none } =
          .ok (res, st') →
      ∃ r', res = some r' ∧ r'.description = none ∧
        FeatureFlagService.getFlagByKey st' k = some r' := by
  have hup : FeatureFlagService.updateFlag st now k
      { description := some none, enabled := none, flag_data := none } =
      .ok ((FeatureFlagService.getFlagByKey st k).map
          (FeatureFlagService.applyPatch
            { description := some none, enabled := none, flag_data := none }
            now),
        { rows := st.rows.map (fun x => if x.flag_key == k then
            FeatureFlagService.applyPatch
              { description := some none, enabled := none, flag_data := none }
              now x
          else x), nextId := st.nextId }) := rfl
  constructor
  · exact ⟨_, hup⟩
  · intro res st' h
    rw [hup, hr, Option.map_some'] at h
    simp only [Except.ok.injEq, Prod.mk.injEq] at h
    obtain ⟨hres, hst⟩ := h
    subst hres
    subst hst
    exact ⟨_, rfl, rfl,
      getFlagByKey_map_patch st k r _ (fun _ => rfl) hr⟩

/-- C10 witness: setting `description` to JSON null on the sample flag
stores NULL. -/
theorem C10_witness :
    ∃ r', some ({ id := 1, flag_key := "beta-ui", description := none,
                  enabled := true, flag_data := Json.obj [("a", .num 1)],
                  created_at := 0, updated_at := 5 } : FeatureFlag) =
        some r' ∧
      r'.description = none ∧
      FeatureFlagService.getFlagByKey
          { rows := [{ id := 1, flag_key := "beta-ui", description := none,
                       enabled := true,
                       flag_data := Json.obj [("a", .num 1)],
                       created_at := 0, updated_at := 5 }],
            nextId := 2 } "beta-ui" = some r' :=
  (C10_update_null_description sampleStore ("beta-ui") 5 sampleFlag rfl).2
    (some { id := 1, flag_key := "beta-ui", description := none,
            enabled := true, flag_data := Json.obj [("a", .num 1)],
            created_at := 0, updated_at := 5 })
    { rows := [{ id := 1, flag_key := "beta-ui", description := none,
                 enabled := true, flag_data := Json.obj [("a", .num 1)],
                 created_at := 0, updated_at := 5 }], nextId := 2 } rfl

/-- C2: update applies exactly the fields present in the patch; fields
absent from the patch retain their prior values, and the row identity
(`flag_key`, `id`, `created_at`) is untouched. -/
theorem C2_partial_update (st : Store) (now : Nat) (k : String)
    (d : UpdateFeatureFlagDto) (r : FeatureFlag)
    (hr : FeatureFlagService.getFlagByKey st k = some r)
    (hen : d.enabled ≠ some none) :
    (∃ out, FeatureFlagService.updateFlag st now k d = .ok out) ∧
    ∀ res st', FeatureFlagService.updateFlag st now k d = .ok (res, st') →
      ∃ r', res = some r' ∧
        r'.description = d.description.getD r.description ∧
        r'.enabled = (d.enabled.bind id).getD r.enabled ∧
        r'.flag_data = d.flag_data.getD r.flag_data ∧
        r'.flag_key = r.flag_key ∧ r'.id = r.id ∧
        r'.created_at = r.created_at := by
  have hbeq : (d.enabled == some none) = false := beq_eq_false_iff_ne.mpr hen
  by_cases hc : (d.description.isNone && d.enabled.isNone &&
      d.flag_data.isNone) = true
  · obtain ⟨⟨h1, h2⟩, h3⟩ := by
      simpa only [Bool.and_eq_true] using hc
    have hd1 : d.description = none := Option.isNone_iff_eq_none.mp h1
    have hd2 : d.enabled = none := Option.isNone_iff_eq_none.mp h2
    have hd3 : d.flag_data = none := Option.isNone_iff_eq_none.mp h3
    have hup : FeatureFlagService.updateFlag st now k d = .ok (some r, st) := by
      rw [FeatureFlagService.updateFlag, hc, if_pos rfl, hr]
    refine ⟨⟨_, hup⟩, ?_⟩
    intro res st' h
    rw [hup] at h
    simp only [Except.ok.injEq, Prod.mk.injEq] at h
    obtain ⟨hres, hst⟩ := h
    subst hres
    subst hst
    exact ⟨r, rfl, by simp [hd1], by simp [hd2], by simp [hd3],
      rfl, rfl, rfl⟩
  · have hc' := Bool.eq_false_iff.mpr hc
    have hup : FeatureFlagService.updateFlag st now k d =
        .ok (some (FeatureFlagService.applyPatch d now r),
          { rows := st.rows.map (fun x => if x.flag_key == k then
              FeatureFlagService.applyPatch d now x
            else x), nextId := st.nextId }) := by
      rw [FeatureFlagService.updateFlag, hc', if_neg (by simp), hbeq,
        if_neg (by simp), hr, Option.map_some']
    refine ⟨⟨_, hup⟩, ?_⟩
    intro res st' h
    rw [hup] at h
    simp only [Except.ok.injEq, Prod.mk.injEq] at h
    obtain ⟨hres, hst⟩ := h
    subst hres
    subst hst
    exact ⟨_, rfl, rfl, rfl, rfl, rfl, rfl, rfl⟩

/-- C2 witness: patching `enabled` only on the sample flag leaves
`description` and `flag_data` unchanged. -/
theorem C2_witness :
    ∃ r', some ({ id := 1, flag_key := "beta-ui", description := some ("d"),
                  enabled := false, flag_data := Json.obj [("a", .num 1)],
                  created_at := 0, updated_at := 5 } : FeatureFlag) =
        some r' ∧
      r'.description = some ("d") ∧ r'.enabled = false ∧
      r'.flag_data = .obj [("a", .num 1)] ∧
      r'.flag_key = "beta-ui" ∧ r'.id = 1 ∧ r'.created_at = 0 :=
  (C2_partial_update sampleStore 5 "beta-ui"
    { description := none, enabled := some (some false), flag_data := none }
    sampleFlag rfl (by simp)).2
    (some { id := 1, flag_key := "beta-ui", description := some ("d"),
            enabled := false, flag_data := Json.obj [("a", .num 1)],
            created_at := 0, updated_at := 5 })
    { rows := [{ id := 1, flag_key := "beta-ui", description := some ("d"),
                 enabled := false, flag_data := Json.obj [("a", .num 1)],
                 created_at := 0, updated_at := 5 }], nextId := 2 } rfl

/-- C3: an empty patch is a no-op returning the current row with the store
(and hence `updated_at`) unchanged; any non-empty patch that succeeds sets
`updated_at` to the statement time, which is strictly later whenever the
clock has advanced. -/
theorem C3_updated_at (st : Store) (k : String) (r : FeatureFlag)
    (hr : FeatureFlagService.getFlagByKey st k = some r) :
    (∀ now, FeatureFlagService.updateFlag st now k
        { description := none, enabled := none, flag_data := none } =
        .ok (some r, st)) ∧
    (∀ now d res st',
      (d.description.isNone && d.enabled.isNone &&
        d.flag_data.isNone) = false →
      FeatureFlagService.updateFlag st now k d = .ok (res, st') →
      ∃ r', res = some r' ∧ r'.updated_at = now ∧
        (r.updated_at < now → r.updated_at < r'.updated_at)) := by
  constructor
  · intro now
    have hup : FeatureFlagService.updateFlag st now k
        { description := none, enabled := none, flag_data := none } =
        .ok (FeatureFlagService.getFlagByKey st k, st) := rfl
    rw [hup, hr]
  · intro now d res st' hc h
    by_cases hbeq : (d.enabled == some none) = true
    · rw [FeatureFlagService.updateFlag, hc, if_neg (by simp), hbeq,
        if_pos rfl] at h
      exact absurd h (by simp)
    · have hbeq' := Bool.eq_false_iff.mpr hbeq
      rw [FeatureFlagService.updateFlag, hc, if_neg (by simp), hbeq',
        if_neg (by simp), hr, Option.map_some'] at h
      simp only [Except.ok.injEq, Prod.mk.injEq] at h
      obtain ⟨hres, hst⟩ := h
      subst hres
      refine ⟨_, rfl, rfl, ?_⟩
      intro hlt
      exact hlt

/-- C3 witness: on the sample table, the empty patch at time 5 returns the
row and store unchanged, while patching `description` at time 5 stamps
`updated_at = 5 > 0`. -/
theorem C3_witness :
    (FeatureFlagService.updateFlag sampleStore 5 "beta-ui"
        { description := none, enabled := none, flag_data := none } =
        .ok (some sampleFlag, sampleStore)) ∧
    (∃ r', some ({ id := 1, flag_key := "beta-ui",
                   description := some ("e"), enabled := true,
                   flag_data := Json.obj [("a", .num 1)], created_at := 0,
                   updated_at := 5 } : FeatureFlag) = some r' ∧
      r'.updated_at = 5 ∧
      (sampleFlag.updated_at < 5 →
        sampleFlag.updated_at < r'.updated_at)) :=
  ⟨(C3_updated_at sampleStore ("beta-ui") sampleFlag rfl).1 5,
   (C3_updated_at sampleStore ("beta-ui") sampleFlag rfl).2 5
     { description := some (some ("e")), enabled := none, flag_data := none }
     (some { id := 1, flag_key := "beta-ui", description := some ("e"),
             enabled := true, flag_data := Json.obj [("a", .num 1)],
             created_at := 0, updated_at := 5 })
     { rows := [{ id := 1, flag_key := "beta-ui", description := some ("e"),
                  enabled := true, flag_data := Json.obj [("a", .num 1)],
                  created_at := 0, updated_at := 5 }], nextId := 2 }
     rfl rfl⟩

theorem map_toggle_id (st : Store) (k : String) (now : Nat)
    (habs : FeatureFlagService.getFlagByKey st k = none) :
    st.rows.map (fun r => if r.flag_key == k then
      { r with enabled := !r.enabled, updated_at := now } else r) =
      st.rows := by
  have h1 : st.rows.map (fun r => if r.flag_key == k then
      { r with enabled := !r.enabled, updated_at := now } else r) =
      st.rows.map id := by
    apply List.map_congr_left
    intro a ha
    have hne := List.find?_eq_none.mp habs a ha
    simp only [Bool.not_eq_true] at hne
    simp [hne]
  rw [h1, List.map_id]

/-- C4: toggle flips `enabled` to its negation and changes no other field
besides `updated_at` (it is a single `enabled = NOT enabled` statement);
toggling twice restores the original `enabled`, and toggling a nonexistent
key returns absence both times with the store untouched. -/
theorem C4_toggle_pair (st : Store) (k : String) (now now2 : Nat) :
    (FeatureFlagService.getFlagByKey st k = none →
      FeatureFlagService.toggleFlag st now k = (none, st) ∧
      FeatureFlagService.toggleFlag
        (FeatureFlagService.toggleFlag st now k).2 now2 k = (none, st)) ∧
    (∀ r, FeatureFlagService.getFlagByKey st k = some r →
      ∀ res1 st1, FeatureFlagService.toggleFlag st now k = (res1, st1) →
        ∃ r1, res1 = some r1 ∧
          r1.enabled = !r.enabled ∧ r1.description = r.description ∧
          r1.flag_data = r.flag_data ∧ r1.flag_key = r.flag_key ∧
          r1.id = r.id ∧ r1.created_at = r.created_at ∧
          r1.updated_at = now ∧
          ∀ res2 st2, FeatureFlagService.toggleFlag st1 now2 k =
              (res2, st2) →
            ∃ r2, res2 = some r2 ∧ r2.enabled = r.enabled) := by
  constructor
  · intro habs
    have hmap := map_toggle_id st k now habs
    have ht : FeatureFlagService.toggleFlag st now k =
        ((FeatureFlagService.getFlagByKey st k).map
          (fun r => { r with enabled := !r.enabled, updated_at := now }),
         { rows := st.rows.map (fun r => if r.flag_key == k then
             { r with enabled := !r.enabled, updated_at := now } else r)
           nextId := st.nextId }) := rfl
    rw [ht, habs, hmap, Option.map_none']
    have hst : ({ rows := st.rows, nextId := st.nextId } : Store) = st := rfl
    rw [hst]
    refine ⟨rfl, ?_⟩
    have ht2 : FeatureFlagService.toggleFlag st now2 k =
        ((FeatureFlagService.getFlagByKey st k).map
          (fun r => { r with enabled := !r.enabled, updated_at := now2 }),
         { rows := st.rows.map (fun r => if r.flag_key == k then
             { r with enabled := !r.enabled, updated_at := now2 } else r)
           nextId := st.nextId }) := rfl
    have hmap2 := map_toggle_id st k now2 habs
    rw [ht2, habs, hmap2, Option.map_none', hst]
  · intro r hr res1 st1 h1
    have ht : FeatureFlagService.toggleFlag st now k =
        ((FeatureFlagService.getFlagByKey st k).map
          (fun r => { r with enabled := !r.enabled, updated_at := now }),
         { rows := st.rows.map (fun r => if r.flag_key == k then
             { r with enabled := !r.enabled, updated_at := now } else r)
           nextId := st.nextId }) := rfl
    have hget1 := getFlagByKey_map_patch st k r
      (fun r => { r with enabled := !r.enabled, updated_at := now })
      (fun _ => rfl) hr
    rw [ht, hr, Option.map_some'] at h1
    simp only [Prod.mk.injEq] at h1
    obtain ⟨hres1, hst1⟩ := h1
    subst hres1
    subst hst1
    refine ⟨_, rfl, rfl, rfl, rfl, rfl, rfl, rfl, rfl, ?_⟩
    intro res2 st2 h2
    have ht2 : FeatureFlagService.toggleFlag
        { rows := st.rows.map (fun x => if x.flag_key == k then
            { x with enabled := !x.enabled, updated_at := now } else x)
          nextId := st.nextId } now2 k =
        ((FeatureFlagService.getFlagByKey
            { rows := st.rows.map (fun x => if x.flag_key == k then
                { x with enabled := !x.enabled, updated_at := now } else x)
              nextId := st.nextId } k).map
          (fun r => { r with enabled := !r.enabled, updated_at := now2 }),
         { rows := (st.rows.map (fun x => if x.flag_key == k then
               { x with enabled := !x.enabled, updated_at := now } else x)).map
             (fun x => if x.flag_key == k then
               { x with enabled := !x.enabled, updated_at := now2 } else x)
           nextId := st.nextId }) := rfl
    rw [ht2, hget1, Option.map_some'] at h2
    simp only [Prod.mk.injEq] at h2
    obtain ⟨hres2, hst2⟩ := h2
    subst hres2
    exact ⟨_, rfl, by simp⟩

/-- C4 witness: toggling the unknown key `nope` twice returns absence both
times, and toggling the sample flag twice restores `enabled = true`. -/
theorem C4_witness :
    (FeatureFlagService.toggleFlag sampleStore 5 "nope" =
        (none, sampleStore) ∧
      FeatureFlagService.toggleFlag
        (FeatureFlagService.toggleFlag sampleStore 5 "nope").2 6 "nope" =
        (none, sampleStore)) ∧
    ∃ r1, (FeatureFlagService.toggleFlag sampleStore 5 "beta-ui").1 =
        some r1 ∧
      r1.enabled = !sampleFlag.enabled ∧
      r1.description = sampleFlag.description ∧
      r1.flag_data = sampleFlag.flag_data ∧
      r1.flag_key = sampleFlag.flag_key ∧ r1.id = sampleFlag.id ∧
      r1.created_at = sampleFlag.created_at ∧ r1.updated_at = 5 ∧
      ∀ res2 st2, FeatureFlagService.toggleFlag
          (FeatureFlagService.toggleFlag sampleStore 5 "beta-ui").2 6
          "beta-ui" = (res2, st2) →
        ∃ r2, res2 = some r2 ∧ r2.enabled = sampleFlag.enabled :=
  ⟨(C4_toggle_pair sampleStore ("nope") 5 6).1 rfl,
   (C4_toggle_pair sampleStore ("beta-ui") 5 6).2 sampleFlag rfl _ _ rfl⟩

/-- C1: creating a fresh key succeeds with 201; creating the same key again
is answered 409 by the controller's pre-check with the store unchanged; and
independently of the pre-check, the store's uniqueness constraint rejects an
insert for an existing key with Postgres code 23505, which the error
middleware maps to 409. -/
theorem C1_create_conflict (st : Store) (b : CreateBody) (k : String)
    (now now2 : Nat) (hk : b.flag_key = some k) (hne : k.isEmpty = false)
    (habs : FeatureFlagService.getFlagByKey st k = none) :
    ∀ s1 st1, FeatureFlagController.createFlag st now b = (s1, st1) →
      s1 = 201 ∧
      (∃ row, FeatureFlagService.getFlagByKey st1 k = some row) ∧
      FeatureFlagController.createFlag st1 now2 b = (409, st1) ∧
      ∀ st' d now', (∃ r ∈ st'.rows, r.flag_key = d.flag_key) →
        FeatureFlagService.createFlag st' now' d =
          .error { code := some ("23505") } ∧
        errorHandler { code := some ("23505") } = 409 := by
  have hany := findKey_none_any st k habs
  obtain ⟨bk, bd, be, bf⟩ := b
  have hbk : bk = some k := hk
  subst hbk
  have hred : ∀ st0 : Store, FeatureFlagController.createFlag st0 now2
      { flag_key := some k, description := bd, enabled := be,
        flag_data := bf } =
      (if k.isEmpty then (400, st0) else
        match FeatureFlagService.getFlagByKey st0 k with
        | some _ => (409, st0)
        | none =>
          match FeatureFlagService.createFlag st0 now2
              { flag_key := k, description := bd, enabled := be,
                flag_data := bf } with
          | .ok (_, st') => (201, st')
          | .error e => (errorHandler e, st0)) := fun _ => rfl
  have h1 : FeatureFlagController.createFlag st now
      { flag_key := some k, description := bd, enabled := be,
        flag_data := bf } =
      (201, { rows := st.rows ++
                [{ id := st.nextId, flag_key := k,
                   description := some (jsOrStr bd ("")),
                   enabled := jsNullish be false,
                   flag_data := jsOrEmptyObj bf,
                   created_at := now, updated_at := now }],
              nextId := st.nextId + 1 }) := by
    have hr0 : FeatureFlagController.createFlag st now
        { flag_key := some k, description := bd, enabled := be,
          flag_data := bf } =
        (if k.isEmpty then (400, st) else
          match FeatureFlagService.getFlagByKey st k with
          | some _ => (409, st)
          | none =>
            match FeatureFlagService.createFlag st now
                { flag_key := k, description := bd, enabled := be,
                  flag_data := bf } with
            | .ok (_, st') => (201, st')
            | .error e => (errorHandler e, st)) := rfl
    rw [hr0, hne, if_neg (by simp), habs, FeatureFlagService.createFlag,
      hany]
    exact rfl
  intro s1 st1 h
  rw [h1] at h
  simp only [Prod.mk.injEq] at h
  obtain ⟨hs1, hst1⟩ := h
  subst hst1
  subst hs1
  have hfind : FeatureFlagService.getFlagByKey
      { rows := st.rows ++
          [{ id := st.nextId, flag_key := k,
             description := some (jsOrStr bd ("")),
             enabled := jsNullish be false,
             flag_data := jsOrEmptyObj bf,
             created_at := now, updated_at := now }],
        nextId := st.nextId + 1 } k =
      some { id := st.nextId, flag_key := k,
             description := some (jsOrStr bd ("")),
             enabled := jsNullish be false,
             flag_data := jsOrEmptyObj bf,
             created_at := now, updated_at := now } := by
    rw [FeatureFlagService.getFlagByKey] at habs ⊢
    rw [List.find?_append, habs]
    simp
  refine ⟨rfl, ⟨_, hfind⟩, ?_, ?_⟩
  · rw [hred, hne, if_neg (by simp), hfind]
  · intro st' d now' hex
    obtain ⟨r0, hr0mem, hr0key⟩ := hex
    have hany' : (st'.rows.any (fun r => r.flag_key == d.flag_key)) = true :=
      List.any_eq_true.mpr ⟨r0, hr0mem, beq_iff_eq.mpr hr0key⟩
    constructor
    · rw [FeatureFlagService.createFlag, hany']
      exact rfl
    · rfl

/-- C1 witness: on the empty table, creating `k1` returns 201, creating it
again returns 409, and a direct insert of an existing key raises 23505
(mapped to 409). -/
theorem C1_witness :
    (201 : Nat) = 201 ∧
    (∃ row, FeatureFlagService.getFlagByKey
        { rows := [{ id := 1, flag_key := "k1", description := some (""),
                     enabled := false, flag_data := Json.obj [],
                     created_at := 3, updated_at := 3 }],
          nextId := 2 } "k1" = some row) ∧
    FeatureFlagController.createFlag
        { rows := [{ id := 1, flag_key := "k1", description := some (""),
                     enabled := false, flag_data := Json.obj [],
                     created_at := 3, updated_at := 3 }],
          nextId := 2 } 4
        { flag_key := some ("k1"), description := none, enabled := none,
          flag_data := none } =
      (409, { rows := [{ id := 1, flag_key := "k1",
                         description := some (""), enabled := false,
                         flag_data := Json.obj [], created_at := 3,
                         updated_at := 3 }], nextId := 2 }) ∧
    ∀ st' d now', (∃ r ∈ st'.rows, r.flag_key = d.flag_key) →
      FeatureFlagService.createFlag st' now' d =
        .error { code := some ("23505") } ∧
      errorHandler { code := some ("23505") } = 409 :=
  C1_create_conflict store0
    { flag_key := some ("k1"), description := none, enabled := none,
      flag_data := none } "k1" 3 4 rfl rfl rfl 201
    { rows := [{ id := 1, flag_key := "k1", description := some (""),
                 enabled := false, flag_data := Json.obj [],
                 created_at := 3, updated_at := 3 }], nextId := 2 } rfl

/-- C9: the transaction wrapper releases the client on every exit path and
restores the pre-transaction store on error (ROLLBACK); a controller create
that does not succeed leaves the store unchanged. -/
theorem C9_transaction_atomic {α : Type} (st : Store)
    (cb : Store → Except PgError (α × Store)) :
    (transaction st cb).released = true ∧
    (∀ e, (transaction st cb).outcome = .error e →
      (transaction st cb).finalState = st) ∧
    (∀ st0 now b, (FeatureFlagController.createFlag st0 now b).1 ≠ 201 →
      (FeatureFlagController.createFlag st0 now b).2 = st0) := by
  refine ⟨?_, ?_, ?_⟩
  · rw [transaction]
    cases hcb : cb st with
    | ok p => obtain ⟨a, st'⟩ := p; rfl
    | error e => rfl
  · intro e he
    rw [transaction] at he ⊢
    cases hcb : cb st with
    | ok p =>
      obtain ⟨a, st'⟩ := p
      rw [hcb] at he
      exact absurd he (by simp)
    | error e' => rfl
  · intro st0 now b h
    obtain ⟨bk, bd, be, bf⟩ := b
    cases bk with
    | none => rfl
    | some k =>
      have hred : FeatureFlagController.createFlag st0 now
          { flag_key := some k, description := bd, enabled := be,
            flag_data := bf } =
          (if k.isEmpty then (400, st0) else
            match FeatureFlagService.getFlagByKey st0 k with
            | some _ => (409, st0)
            | none =>
              match FeatureFlagService.createFlag st0 now
                  { flag_key := k, description := bd, enabled := be,
                    flag_data := bf } with
              | .ok (_, st') => (201, st')
              | .error e => (errorHandler e, st0)) := rfl
      rw [hred] at h ⊢
      by_cases hke : k.isEmpty = true
      · rw [hke] at h ⊢
        rfl
      · have hke' := Bool.eq_false_iff.mpr hke
        rw [hke', if_neg (by simp)] at h ⊢
        cases hg : FeatureFlagService.getFlagByKey st0 k with
        | some r => rfl
        | none =>
          rw [hg] at h
          cases hc : FeatureFlagService.createFlag st0 now
              { flag_key := k, description := bd, enabled := be,
                flag_data := bf } with
          | ok p =>
            rw [hc] at h
            obtain ⟨a, st'⟩ := p
            exact absurd rfl h
          | error e => rfl

/-- C9 witness: a failing callback on the empty table leaves the store
unchanged and releases the client. -/
theorem C9_witness :
    (transaction store0
      (fun _ => (.error { code := none } :
        Except PgError (Unit × Store)))).released = true ∧
    (transaction store0
      (fun _ => (.error { code := none } :
        Except PgError (Unit × Store)))).finalState = store0 :=
  ⟨(C9_transaction_atomic store0 _).1,
   (C9_transaction_atomic store0 _).2.1 { code := none } rfl⟩

/-- C7 counterexample: the well-formed JSON scalar `false` supplied as
`flag_data` is not persisted verbatim — `data.flag_data || {}` replaces it
with the empty object. -/
theorem C7_counterexample :
    FeatureFlagService.createFlag store0 0
        { flag_key := "k", description := none, enabled := none,
          flag_data := some (.bool false) } =
      .ok ({ id := 1, flag_key := "k", description := some (""),
             enabled := false, flag_data := .obj [], created_at := 0,
             updated_at := 0 },
           { rows := [{ id := 1, flag_key := "k", description := some (""),
                        enabled := false, flag_data := .obj [],
                        created_at := 0, updated_at := 0 }],
             nextId := 2 }) ∧
    Json.obj [] ≠ Json.bool false :=
  ⟨rfl, fun hcon => Json.noConfusion hcon⟩

/-- C7 (amended): a supplied `flag_data` that is JS-truthy is persisted
verbatim; the JS-falsy JSON values (`null`, `false`, `0`, `""`) are
replaced by the empty object `{}` by the `data.flag_data || {}`
defaulting. -/
theorem C7_flag_data_verbatim (st : Store) (now : Nat) (k : String)
    (j : Json) (habs : FeatureFlagService.getFlagByKey st k = none) :
    (∃ p, FeatureFlagService.createFlag st now
        { flag_key := k, description := none, enabled := none,
          flag_data := some j } = .ok p) ∧
    ∀ row st', FeatureFlagService.createFlag st now
        { flag_key := k, description := none, enabled := none,
          flag_data := some j } = .ok (row, st') →
      (jsTruthy j = true → row.flag_data = j) ∧
      (jsTruthy j = false → row.flag_data = .obj []) := by
  have hany := findKey_none_any st k habs
  constructor
  · exact ⟨_, by rw [FeatureFlagService.createFlag, hany]; exact rfl⟩
  · intro row st' h
    rw [FeatureFlagService.createFlag, hany] at h
    simp only [Bool.false_eq_true, if_false, Except.ok.injEq,
      Prod.mk.injEq] at h
    obtain ⟨hrow, _⟩ := h
    subst hrow
    constructor
    · intro ht
      simp [jsOrEmptyObj, ht]
    · intro ht
      simp [jsOrEmptyObj, ht]

/-- C7 witness: the truthy payload `42` is persisted verbatim on the empty
table. -/
theorem C7_witness :
    (jsTruthy (.num 42) = true →
      ({ id := 1, flag_key := "k", description := some (""),
         enabled := false, flag_data := Json.num 42, created_at := 0,
         updated_at := 0 } : FeatureFlag).flag_data = .num 42) ∧
    (jsTruthy (.num 42) = false →
      ({ id := 1, flag_key := "k", description := some (""),
         enabled := false, flag_data := Json.num 42, created_at := 0,
         updated_at := 0 } : FeatureFlag).flag_data = .obj []) :=
  (C7_flag_data_verbatim store0 0 "k" (.num 42) rfl).2
    { id := 1, flag_key := "k", description := some (""), enabled := false,
      flag_data := Json.num 42, created_at := 0, updated_at := 0 }
    { rows := [{ id := 1, flag_key := "k", description := some (""),
                 enabled := false, flag_data := Json.num 42,
                 created_at := 0, updated_at := 0 }], nextId := 2 } rfl

/-- C6 counterexample: the search term `_` is a LIKE wildcard, not a plain
character: it matches the flag `x` even though neither the key `x` nor the
empty description contains `_` as a substring, so `searchFlags` is not
plain case-insensitive substring search for every term. -/
theorem C6_counterexample :
    FeatureFlagService.searchFlags cexStore ("_") = [cexFlag] ∧
    ciContains ("_") cexFlag.flag_key = false ∧
    cexFlag.description = some ("") ∧
    ciContains ("_") "" = false := by
  have hm : ilikeStr ("%_%") "x" = true := by
    show likeMatch ['%', '_', '%'] ['x'] = true
    simp [likeMatch_pct, likeMatch_us, likeMatch_none]
  refine ⟨?_, by decide, rfl, by decide⟩
  simp only [FeatureFlagService.searchFlags, cexStore]
  simp [cexFlag, hm, List.insertionSort, List.orderedInsert]

/-- C6 (amended): for search terms free of the LIKE metacharacters `%`,
`_`, `\`, the search returns exactly the flags whose key or (non-NULL)
description case-insensitively contains the term as a plain substring,
sorted by `flag_key` ascending (an empty list — never an error — when
nothing matches). -/
theorem C6_search_semantics (st : Store) (term : String)
    (hp : plainTerm term = true) :
    (∀ r, r ∈ FeatureFlagService.searchFlags st term ↔
      r ∈ st.rows ∧ (ciContains term r.flag_key = true ∨
        ∃ dsc, r.description = some dsc ∧ ciContains term dsc = true)) ∧
    (FeatureFlagService.searchFlags st term).Pairwise
      (fun a b => a.flag_key ≤ b.flag_key) := by
  have hpred : ∀ r : FeatureFlag,
      ((ilikeStr ("%" ++ term ++ "%") r.flag_key ||
        (match r.description with
         | some d => ilikeStr ("%" ++ term ++ "%") d
         | none => false)) = true) ↔
      (ciContains term r.flag_key = true ∨
        ∃ dsc, r.description = some dsc ∧ ciContains term dsc = true) := by
    intro r
    rw [Bool.or_eq_true, ilike_eq_ciContains term r.flag_key hp]
    constructor
    · rintro (h | h)
      · exact Or.inl h
      · right
        cases hd : r.description with
        | none => rw [hd] at h; exact absurd h (by simp)
        | some dsc =>
          rw [hd] at h
          have h' : ilikeStr ("%" ++ term ++ "%") dsc = true := h
          rw [ilike_eq_ciContains term dsc hp] at h'
          exact ⟨dsc, rfl, h'⟩
    · rintro (h | ⟨dsc, hdsc, h⟩)
      · exact Or.inl h
      · right
        have h' : ilikeStr ("%" ++ term ++ "%") dsc = true := by
          rw [ilike_eq_ciContains term dsc hp]
          exact h
        rw [hdsc]
        exact h' 
  constructor
  · intro r
    simp only [FeatureFlagService.searchFlags, List.mem_insertionSort,
      List.mem_filter]
    constructor
    · rintro ⟨hmem, hpr⟩
      exact ⟨hmem, (hpred r).mp hpr⟩
    · rintro ⟨hmem, hpr⟩
      exact ⟨hmem, (hpred r).mpr hpr⟩
  · exact List.sorted_insertionSort
      (fun a b : FeatureFlag => a.flag_key ≤ b.flag_key)
      (st.rows.filter (fun r =>
        ilikeStr ("%" ++ term ++ "%") r.flag_key ||
          (match r.description with
           | some d => ilikeStr ("%" ++ term ++ "%") d
           | none => false)))

/-- C6 witness: the flag `Dark-Mode` is returned by a search for the plain
term `dark`. -/
theorem C6_witness :
    darkFlag ∈ FeatureFlagService.searchFlags darkStore ("dark") :=
  ((C6_search_semantics darkStore ("dark") (by decide)).1 darkFlag).mpr
    ⟨by simp [darkStore], Or.inl (by decide)⟩
